import Mathlib

/-!
Verification of the Tornado sessions module (`tornado/session.py`).

The development shallowly embeds the module:

* the pickled-and-base64-encoded session record (`BaseSession.serialize` /
  `BaseSession.deserialize`), with the pickle byte stream modelled as a
  self-delimiting tagged byte encoding and `base64.encodestring` /
  `base64.decodestring` modelled as standard base64 over bytes;
* the session entity (`BaseSession.__init__`, `__setitem__`, `__delitem__`,
  `_value_to_epoch_time`, `refresh`);
* the three storage engines (`FileSession`, `DirSession`, `MySQLSession`)
  as explicit state transformers over a world record that carries the
  stored rows together with a trace of filesystem / database events;
* `MySQLSession._parse_connection_details`, with the two concrete regular
  expressions of the source transcribed as deterministic matchers that
  reproduce the backtracking behaviour of `re.match` on those patterns.

Machine integers do not occur: Python integers are unbounded, so `Nat`/`Int`
are exact models.
-/

/-! ## Byte-level primitives: the pickle byte stream model

`cPickle.dumps` produces a self-delimiting byte string from which
`cPickle.loads` recovers the original object.  We model it by a concrete
self-delimiting byte encoding of the values that actually occur in the
dumped record (strings, integers, `None`, lists and nested dictionaries).
All emitted bytes are below 256, which is what the base64 layer needs. -/

/-- Little-endian base-128 varint encoding, written with a structural fuel
argument so that it evaluates by kernel reduction; the fuel never runs out
when it starts at the number itself. -/
def encodeVarintAux : Nat → Nat → List Nat
  | 0, n => [n % 128]
  | fuel + 1, n =>
    if n < 128 then [n] else (n % 128 + 128) :: encodeVarintAux fuel (n / 128)

/-- Little-endian base-128 varint encoding of a natural number; every byte of
the output is below 256 and the encoding is self-delimiting. -/
def encodeVarint (n : Nat) : List Nat := encodeVarintAux n n

def decodeVarint : List Nat → Option (Nat × List Nat)
  | [] => none
  | b :: rest =>
    if b < 128 then some (b, rest)
    else
      match decodeVarint rest with
      | none => none
      | some (m, r) => some (b - 128 + 128 * m, r)

theorem decodeVarint_encodeVarintAux (fuel : Nat) :
    ∀ n, n ≤ fuel → ∀ r, decodeVarint (encodeVarintAux fuel n ++ r) = some (n, r) := by
  induction fuel with
  | zero =>
    intro n hn r
    have hn0 : n = 0 := by omega
    subst hn0
    simp [encodeVarintAux, decodeVarint]
  | succ fuel ih =>
    intro n hn r
    by_cases h : n < 128
    · simp [encodeVarintAux, h, decodeVarint]
    · have hdiv : n / 128 ≤ fuel := by omega
      rw [encodeVarintAux]
      simp only [h, if_false, List.cons_append, decodeVarint]
      have hge : ¬ n % 128 + 128 < 128 := by omega
      simp only [hge, if_false, ih (n / 128) hdiv r]
      have : n % 128 + 128 - 128 + 128 * (n / 128) = n := by omega
      rw [this]

theorem decodeVarint_encodeVarint (n : Nat) (r : List Nat) :
    decodeVarint (encodeVarint n ++ r) = some (n, r) :=
  decodeVarint_encodeVarintAux n n (Nat.le_refl n) r

theorem encodeVarintAux_lt (fuel : Nat) :
    ∀ n, ∀ b ∈ encodeVarintAux fuel n, b < 256 := by
  induction fuel with
  | zero =>
    intro n b hb
    simp only [encodeVarintAux, List.mem_singleton] at hb
    omega
  | succ fuel ih =>
    intro n b hb
    rw [encodeVarintAux] at hb
    by_cases h : n < 128
    · simp only [h, if_true, List.mem_singleton] at hb
      omega
    · simp only [h, if_false, List.mem_cons] at hb
      rcases hb with hb | hb
      · omega
      · exact ih (n / 128) b hb

theorem encodeVarint_lt (n : Nat) : ∀ b ∈ encodeVarint n, b < 256 :=
  encodeVarintAux_lt n n

theorem encodeVarint_length_pos (n : Nat) : 1 ≤ (encodeVarint n).length := by
  unfold encodeVarint
  cases n with
  | zero => simp [encodeVarintAux]
  | succ m =>
    rw [encodeVarintAux]
    by_cases h : m + 1 < 128 <;> simp [h]

/-- Encoding of a character sequence: one varint per Unicode code point. -/
def encodeChars : List Char → List Nat
  | [] => []
  | c :: cs => encodeVarint c.toNat ++ encodeChars cs

def decodeChars : Nat → List Nat → Option (List Char × List Nat)
  | 0, l => some ([], l)
  | n + 1, l =>
    match decodeVarint l with
    | none => none
    | some (m, r) =>
      match decodeChars n r with
      | none => none
      | some (cs, r2) => some (Char.ofNat m :: cs, r2)

theorem decodeChars_encodeChars (cs : List Char) (r : List Nat) :
    decodeChars cs.length (encodeChars cs ++ r) = some (cs, r) := by
  induction cs with
  | nil => simp [encodeChars, decodeChars]
  | cons c cs ih =>
    simp only [encodeChars, List.length_cons, decodeChars, List.append_assoc,
      decodeVarint_encodeVarint, ih, Char.ofNat_toNat]

theorem encodeChars_lt (cs : List Char) : ∀ b ∈ encodeChars cs, b < 256 := by
  induction cs with
  | nil => simp [encodeChars]
  | cons c cs ih =>
    simp only [encodeChars, List.mem_append]
    intro b hb
    rcases hb with hb | hb
    · exact encodeVarint_lt _ b hb
    · exact ih b hb

/-- Encoding of a Python string: length-prefixed character sequence. -/
def encodeString (s : String) : List Nat :=
  encodeVarint s.data.length ++ encodeChars s.data

def decodeString (l : List Nat) : Option (String × List Nat) :=
  match decodeVarint l with
  | none => none
  | some (n, r) =>
    match decodeChars n r with
    | none => none
    | some (cs, r2) => some (String.mk cs, r2)

theorem decodeString_encodeString (s : String) (r : List Nat) :
    decodeString (encodeString s ++ r) = some (s, r) := by
  simp only [encodeString, decodeString, List.append_assoc,
    decodeVarint_encodeVarint, decodeChars_encodeChars]

theorem encodeString_lt (s : String) : ∀ b ∈ encodeString s, b < 256 := by
  simp only [encodeString, List.mem_append]
  intro b hb
  rcases hb with hb | hb
  · exact encodeVarint_lt _ b hb
  · exact encodeChars_lt _ b hb

theorem encodeString_length_pos (s : String) : 1 ≤ (encodeString s).length := by
  simp only [encodeString, List.length_append]
  have := encodeVarint_length_pos s.data.length
  omega

/-- Encoding of a Python integer: sign byte followed by the magnitude. -/
def encodeInt (i : Int) : List Nat :=
  if i < 0 then 1 :: encodeVarint (-i).toNat else 0 :: encodeVarint i.toNat

def decodeInt : List Nat → Option (Int × List Nat)
  | 0 :: r =>
    match decodeVarint r with
    | none => none
    | some (m, r2) => some ((m : Int), r2)
  | 1 :: r =>
    match decodeVarint r with
    | none => none
    | some (m, r2) => some (-(m : Int), r2)
  | _ => none

theorem decodeInt_encodeInt (i : Int) (r : List Nat) :
    decodeInt (encodeInt i ++ r) = some (i, r) := by
  by_cases h : i < 0
  · simp only [encodeInt, h, if_true, List.cons_append, decodeInt,
      decodeVarint_encodeVarint]
    congr 1
    congr 1
    omega
  · simp only [encodeInt, h, if_false, List.cons_append, decodeInt,
      decodeVarint_encodeVarint]
    congr 1
    congr 1
    omega

theorem encodeInt_lt (i : Int) : ∀ b ∈ encodeInt i, b < 256 := by
  unfold encodeInt
  by_cases h : i < 0 <;> simp only [h, if_true, if_false, List.mem_cons]
  all_goals intro b hb
  all_goals rcases hb with hb | hb
  · omega
  · exact encodeVarint_lt _ b hb
  · omega
  · exact encodeVarint_lt _ b hb

/-- Encoding of an optional string (`None` or `str`). -/
def encodeOptString : Option String → List Nat
  | none => [0]
  | some s => 1 :: encodeString s

def decodeOptString : List Nat → Option (Option String × List Nat)
  | 0 :: r => some (none, r)
  | 1 :: r =>
    match decodeString r with
    | none => none
    | some (s, r2) => some (some s, r2)
  | _ => none

theorem decodeOptString_encodeOptString (o : Option String) (r : List Nat) :
    decodeOptString (encodeOptString o ++ r) = some (o, r) := by
  cases o with
  | none => simp [encodeOptString, decodeOptString]
  | some s =>
    simp [encodeOptString, decodeOptString, decodeString_encodeString]

theorem encodeOptString_lt (o : Option String) :
    ∀ b ∈ encodeOptString o, b < 256 := by
  cases o with
  | none => simp [encodeOptString]
  | some s =>
    simp only [encodeOptString, List.mem_cons]
    intro b hb
    rcases hb with hb | hb
    · omega
    · exact encodeString_lt _ b hb

/-- Encoding of an optional integer (`None` or `int`). -/
def encodeOptInt : Option Int → List Nat
  | none => [0]
  | some i => 1 :: encodeInt i

def decodeOptInt : List Nat → Option (Option Int × List Nat)
  | 0 :: r => some (none, r)
  | 1 :: r =>
    match decodeInt r with
    | none => none
    | some (i, r2) => some (some i, r2)
  | _ => none

theorem decodeOptInt_encodeOptInt (o : Option Int) (r : List Nat) :
    decodeOptInt (encodeOptInt o ++ r) = some (o, r) := by
  cases o with
  | none => simp [encodeOptInt, decodeOptInt]
  | some i => simp [encodeOptInt, decodeOptInt, decodeInt_encodeInt]

theorem encodeOptInt_lt (o : Option Int) : ∀ b ∈ encodeOptInt o, b < 256 := by
  cases o with
  | none => simp [encodeOptInt]
  | some i =>
    simp only [encodeOptInt, List.mem_cons]
    intro b hb
    rcases hb with hb | hb
    · omega
    · exact encodeInt_lt _ b hb

/-- Encoding of a list of strings (the `security_model` field). -/
def encodeStringSeq : List String → List Nat
  | [] => []
  | s :: rest => encodeString s ++ encodeStringSeq rest

def encodeStringList (l : List String) : List Nat :=
  encodeVarint l.length ++ encodeStringSeq l

def decodeStringSeq : Nat → List Nat → Option (List String × List Nat)
  | 0, l => some ([], l)
  | n + 1, l =>
    match decodeString l with
    | none => none
    | some (s, r) =>
      match decodeStringSeq n r with
      | none => none
      | some (ss, r2) => some (s :: ss, r2)

def decodeStringList (l : List Nat) : Option (List String × List Nat) :=
  match decodeVarint l with
  | none => none
  | some (n, r) => decodeStringSeq n r

theorem decodeStringSeq_encodeStringSeq (l : List String) (r : List Nat) :
    decodeStringSeq l.length (encodeStringSeq l ++ r) = some (l, r) := by
  induction l with
  | nil => simp [encodeStringSeq, decodeStringSeq]
  | cons s rest ih =>
    simp only [encodeStringSeq, List.length_cons, decodeStringSeq,
      List.append_assoc, decodeString_encodeString, ih]

theorem decodeStringList_encodeStringList (l : List String) (r : List Nat) :
    decodeStringList (encodeStringList l ++ r) = some (l, r) := by
  simp only [encodeStringList, decodeStringList, List.append_assoc,
    decodeVarint_encodeVarint, decodeStringSeq_encodeStringSeq]

theorem encodeStringSeq_lt (l : List String) :
    ∀ b ∈ encodeStringSeq l, b < 256 := by
  induction l with
  | nil => simp [encodeStringSeq]
  | cons s rest ih =>
    simp only [encodeStringSeq, List.mem_append]
    intro b hb
    rcases hb with hb | hb
    · exact encodeString_lt _ b hb
    · exact ih b hb

theorem encodeStringList_lt (l : List String) :
    ∀ b ∈ encodeStringList l, b < 256 := by
  simp only [encodeStringList, List.mem_append]
  intro b hb
  rcases hb with hb | hb
  · exact encodeVarint_lt _ b hb
  · exact encodeStringSeq_lt _ b hb

/-! ## Session data values

The `data` attribute of a session is a Python dictionary whose values are
strings, integers or nested dictionaries (the value population named by the
round-trip property).  Dictionaries are modelled as ordered association
lists, which refines Python dictionary equality. -/

mutual
inductive PVal : Type where
  | pstr : String → PVal
  | pint : Int → PVal
  | pdict : PDict → PVal

inductive PDict : Type where
  | dnil : PDict
  | dcons : String → PVal → PDict → PDict
end

def dictLen : PDict → Nat
  | .dnil => 0
  | .dcons _ _ d => dictLen d + 1

mutual
/-- Tagged byte encoding of a data value (pickle model). -/
def encodePVal : PVal → List Nat
  | .pstr s => 0 :: encodeString s
  | .pint i => 1 :: encodeInt i
  | .pdict d => 2 :: (encodeVarint (dictLen d) ++ encodeEntries d)

/-- Byte encoding of the entries of a dictionary, in order. -/
def encodeEntries : PDict → List Nat
  | .dnil => []
  | .dcons k v d => encodeString k ++ encodePVal v ++ encodeEntries d
end

mutual
/-- Fuel-indexed decoder for data values; the fuel only bounds the dictionary
nesting depth and strictly decreases on every recursive call. -/
def decodePVal : Nat → List Nat → Option (PVal × List Nat)
  | 0, _ => none
  | _ + 1, 0 :: r =>
    match decodeString r with
    | none => none
    | some (s, r2) => some (.pstr s, r2)
  | _ + 1, 1 :: r =>
    match decodeInt r with
    | none => none
    | some (i, r2) => some (.pint i, r2)
  | fuel + 1, 2 :: r =>
    match decodeVarint r with
    | none => none
    | some (n, r2) =>
      match decodeEntries fuel n r2 with
      | none => none
      | some (d, r3) => some (.pdict d, r3)
  | _ + 1, _ => none

/-- Decoder for `n` dictionary entries. -/
def decodeEntries : Nat → Nat → List Nat → Option (PDict × List Nat)
  | _, 0, l => some (.dnil, l)
  | 0, _ + 1, _ => none
  | fuel + 1, n + 1, l =>
    match decodeString l with
    | none => none
    | some (k, r1) =>
      match decodePVal fuel r1 with
      | none => none
      | some (v, r2) =>
        match decodeEntries fuel n r2 with
        | none => none
        | some (d, r3) => some (.dcons k v d, r3)
end

mutual
/-- Fuel needed by `decodePVal` to decode the encoding of `v`. -/
def needV : PVal → Nat
  | .pstr _ => 1
  | .pint _ => 1
  | .pdict d => needE d + 1

/-- Fuel needed by `decodeEntries` to decode the encoding of `d`. -/
def needE : PDict → Nat
  | .dnil => 0
  | .dcons _ v d => max (needV v) (needE d) + 1
end

mutual
theorem decodePVal_encodePVal (v : PVal) (fuel : Nat) (r : List Nat)
    (h : needV v ≤ fuel) :
    decodePVal fuel (encodePVal v ++ r) = some (v, r) := by
  match v, fuel with
  | .pstr s, fuel + 1 =>
    simp only [encodePVal, List.cons_append, decodePVal,
      decodeString_encodeString]
  | .pint i, fuel + 1 =>
    simp only [encodePVal, List.cons_append, decodePVal,
      decodeInt_encodeInt]
  | .pdict d, fuel + 1 =>
    have hd : needE d ≤ fuel := by
      have := h
      simp only [needV] at this
      omega
    simp only [encodePVal, List.cons_append, List.append_assoc, decodePVal,
      decodeVarint_encodeVarint,
      decodeEntries_encodeEntries d fuel r hd]

theorem decodeEntries_encodeEntries (d : PDict) (fuel : Nat) (r : List Nat)
    (h : needE d ≤ fuel) :
    decodeEntries fuel (dictLen d) (encodeEntries d ++ r) = some (d, r) := by
  match d, fuel with
  | .dnil, fuel =>
    cases fuel <;> simp [encodeEntries, dictLen, decodeEntries]
  | .dcons k v d, fuel + 1 =>
    have hv : needV v ≤ fuel := by
      have := h
      simp only [needE] at this
      omega
    have hd : needE d ≤ fuel := by
      have := h
      simp only [needE] at this
      omega
    simp only [encodeEntries, dictLen, List.append_assoc, decodeEntries,
      decodeString_encodeString,
      decodePVal_encodePVal v fuel _ hv,
      decodeEntries_encodeEntries d fuel r hd]
end

mutual
theorem encodePVal_lt (v : PVal) : ∀ b ∈ encodePVal v, b < 256 := by
  match v with
  | .pstr s =>
    simp only [encodePVal, List.mem_cons]
    intro b hb
    rcases hb with hb | hb
    · omega
    · exact encodeString_lt _ b hb
  | .pint i =>
    simp only [encodePVal, List.mem_cons]
    intro b hb
    rcases hb with hb | hb
    · omega
    · exact encodeInt_lt _ b hb
  | .pdict d =>
    simp only [encodePVal, List.mem_cons, List.mem_append]
    intro b hb
    rcases hb with hb | hb | hb
    · omega
    · exact encodeVarint_lt _ b hb
    · exact encodeEntries_lt d b hb

theorem encodeEntries_lt (d : PDict) : ∀ b ∈ encodeEntries d, b < 256 := by
  match d with
  | .dnil => simp [encodeEntries]
  | .dcons k v d =>
    simp only [encodeEntries, List.mem_append]
    intro b hb
    rcases hb with (hb | hb) | hb
    · exact encodeString_lt _ b hb
    · exact encodePVal_lt v b hb
    · exact encodeEntries_lt d b hb
end

mutual
theorem needV_le_length (v : PVal) : needV v ≤ (encodePVal v).length := by
  match v with
  | .pstr s => simp [needV, encodePVal]
  | .pint i => simp [needV, encodePVal]
  | .pdict d =>
    have hd := needE_le_length d
    have hv := encodeVarint_length_pos (dictLen d)
    simp only [needV, encodePVal, List.length_cons, List.length_append]
    omega

theorem needE_le_length (d : PDict) : needE d ≤ (encodeEntries d).length + 1 := by
  match d with
  | .dnil => simp [needE, encodeEntries]
  | .dcons k v d =>
    have hv := needV_le_length v
    have hd := needE_le_length d
    have hk := encodeString_length_pos k
    simp only [needE, encodeEntries, List.length_append]
    omega
end

/-! ## The serialized session record

`BaseSession.serialize` dumps the dictionary
`{session_id, data, expires, ip_address, user_agent, security_model}` with
`cPickle.dumps` and wraps it in `base64.encodestring`;
`BaseSession.deserialize` inverts both layers. -/

structure SessionRecord where
  session_id : String
  data : PDict
  expires : Option Int
  ip_address : Option String
  user_agent : Option String
  security_model : List String

/-- Pickle model for the dumped record: the six fields of the dictionary
built by `BaseSession.serialize`, in their fixed order. -/
def pickleDumps (rec : SessionRecord) : List Nat :=
  encodeString rec.session_id
    ++ (encodeVarint (dictLen rec.data) ++ encodeEntries rec.data)
    ++ encodeOptInt rec.expires
    ++ encodeOptString rec.ip_address
    ++ encodeOptString rec.user_agent
    ++ encodeStringList rec.security_model

/-- Pickle model for loading the dumped record; any malformed byte stream
yields `none` (an unpickling error in the source). -/
def pickleLoads (l : List Nat) : Option SessionRecord :=
  match decodeString l with
  | none => none
  | some (sid, r1) =>
    match decodeVarint r1 with
    | none => none
    | some (n, r2) =>
      match decodeEntries (r2.length + 1) n r2 with
      | none => none
      | some (d, r3) =>
        match decodeOptInt r3 with
        | none => none
        | some (e, r4) =>
          match decodeOptString r4 with
          | none => none
          | some (ip, r5) =>
            match decodeOptString r5 with
            | none => none
            | some (ua, r6) =>
              match decodeStringList r6 with
              | none => none
              | some (sm, _) =>
                some { session_id := sid, data := d, expires := e,
                       ip_address := ip, user_agent := ua,
                       security_model := sm }

theorem pickleLoads_pickleDumps (rec : SessionRecord) :
    pickleLoads (pickleDumps rec) = some rec := by
  unfold pickleDumps pickleLoads
  simp only [List.append_assoc, decodeString_encodeString,
    decodeVarint_encodeVarint]
  have hfuel : needE rec.data ≤
      (encodeEntries rec.data ++ (encodeOptInt rec.expires
        ++ (encodeOptString rec.ip_address ++ (encodeOptString rec.user_agent
        ++ encodeStringList rec.security_model)))).length + 1 := by
    have h1 := needE_le_length rec.data
    simp only [List.length_append]
    omega
  rw [decodeEntries_encodeEntries rec.data _ _ hfuel]
  simp only [decodeOptInt_encodeOptInt, decodeOptString_encodeOptString]
  rw [show encodeStringList rec.security_model
        = encodeStringList rec.security_model ++ [] by simp,
    decodeStringList_encodeStringList]

theorem pickleDumps_lt (rec : SessionRecord) :
    ∀ b ∈ pickleDumps rec, b < 256 := by
  unfold pickleDumps
  simp only [List.mem_append]
  intro b hb
  rcases hb with ((((hb | (hb | hb)) | hb) | hb) | hb) | hb
  · exact encodeString_lt _ b hb
  · exact encodeVarint_lt _ b hb
  · exact encodeEntries_lt _ b hb
  · exact encodeOptInt_lt _ b hb
  · exact encodeOptString_lt _ b hb
  · exact encodeOptString_lt _ b hb
  · exact encodeStringList_lt _ b hb

/-! ## Base64 model

`base64.encodestring` emits the standard base64 alphabet with `=` padding
(the line breaks it inserts are discarded by `base64.decodestring`, so they
are elided here). -/

def b64alphabet : List Char :=
  ['A', 'B', 'C', 'D', 'E', 'F', 'G', 'H', 'I', 'J', 'K', 'L', 'M',
   'N', 'O', 'P', 'Q', 'R', 'S', 'T', 'U', 'V', 'W', 'X', 'Y', 'Z',
   'a', 'b', 'c', 'd', 'e', 'f', 'g', 'h', 'i', 'j', 'k', 'l', 'm',
   'n', 'o', 'p', 'q', 'r', 's', 't', 'u', 'v', 'w', 'x', 'y', 'z',
   '0', '1', '2', '3', '4', '5', '6', '7', '8', '9', '+', '/']

def b64char (n : Nat) : Char := b64alphabet.getD n '?'

def sextetOf (c : Char) : Option Nat :=
  let i := b64alphabet.indexOf c
  if i < 64 then some i else none

theorem sextetOf_b64char : ∀ n < 64, sextetOf (b64char n) = some n := by decide

theorem b64char_ne_pad : ∀ n < 64, b64char n ≠ '=' := by decide

def b64encode : List Nat → List Char
  | [] => []
  | [a] => [b64char (a / 4), b64char (a % 4 * 16), '=', '=']
  | [a, b] => [b64char (a / 4), b64char (a % 4 * 16 + b / 16),
               b64char (b % 16 * 4), '=']
  | a :: b :: c :: rest =>
      b64char (a / 4) :: b64char (a % 4 * 16 + b / 16)
        :: b64char (b % 16 * 4 + c / 64) :: b64char (c % 64) :: b64encode rest

def b64decode : List Char → Option (List Nat)
  | [] => some []
  | w :: x :: y :: z :: rest =>
    if y = '=' ∧ z = '=' ∧ rest = [] then
      match sextetOf w, sextetOf x with
      | some s1, some s2 => some [s1 * 4 + s2 / 16]
      | _, _ => none
    else if z = '=' ∧ rest = [] then
      match sextetOf w, sextetOf x, sextetOf y with
      | some s1, some s2, some s3 =>
          some [s1 * 4 + s2 / 16, s2 % 16 * 16 + s3 / 4]
      | _, _, _ => none
    else
      match sextetOf w, sextetOf x, sextetOf y, sextetOf z, b64decode rest with
      | some s1, some s2, some s3, some s4, some bs =>
          some ((s1 * 4 + s2 / 16) :: (s2 % 16 * 16 + s3 / 4)
                 :: (s3 % 4 * 64 + s4) :: bs)
      | _, _, _, _, _ => none
  | _ => none

theorem b64decode_b64encode (bs : List Nat) (h : ∀ b ∈ bs, b < 256) :
    b64decode (b64encode bs) = some bs := by
  induction bs using b64encode.induct with
  | case1 => simp [b64encode, b64decode]
  | case2 a =>
    have ha : a < 256 := h a (by simp)
    have h1 : a / 4 < 64 := by omega
    have h2 : a % 4 * 16 < 64 := by omega
    simp [b64encode, b64decode, sextetOf_b64char _ h1, sextetOf_b64char _ h2]
    omega
  | case3 a b =>
    have ha : a < 256 := h a (by simp)
    have hb : b < 256 := h b (by simp)
    have h1 : a / 4 < 64 := by omega
    have h2 : a % 4 * 16 + b / 16 < 64 := by omega
    have h3 : b % 16 * 4 < 64 := by omega
    have hy : b64char (b % 16 * 4) ≠ '=' := b64char_ne_pad _ h3
    simp [b64encode, b64decode, hy, sextetOf_b64char _ h1,
      sextetOf_b64char _ h2, sextetOf_b64char _ h3]
    omega
  | case4 a b c rest ih =>
    have ha : a < 256 := h a (by simp)
    have hb : b < 256 := h b (by simp)
    have hc : c < 256 := h c (by simp)
    have hrest : ∀ x ∈ rest, x < 256 := by
      intro x hx
      exact h x (by simp [hx])
    have h1 : a / 4 < 64 := by omega
    have h2 : a % 4 * 16 + b / 16 < 64 := by omega
    have h3 : b % 16 * 4 + c / 64 < 64 := by omega
    have h4 : c % 64 < 64 := by omega
    have hy : b64char (b % 16 * 4 + c / 64) ≠ '=' := b64char_ne_pad _ h3
    have hz : b64char (c % 64) ≠ '=' := b64char_ne_pad _ h4
    simp [b64encode, b64decode, hy, hz, sextetOf_b64char _ h1,
      sextetOf_b64char _ h2, sextetOf_b64char _ h3, sextetOf_b64char _ h4,
      ih hrest]
    omega

/-- Model of `BaseSession.serialize` applied to a record:
`base64.encodestring(pickle.dumps(record))`. -/
def serializeRecord (rec : SessionRecord) : String :=
  String.mk (b64encode (pickleDumps rec))

/-- Model of `BaseSession.deserialize`:
`pickle.loads(base64.decodestring(datastring))`, with `none` standing for
the decode exception raised on corrupted input. -/
def deserializeRecord (s : String) : Option SessionRecord :=
  match b64decode s.data with
  | none => none
  | some bs => pickleLoads bs

/-- C1: deserialize inverts serialize on every session record. -/
theorem deserializeRecord_serializeRecord (rec : SessionRecord) :
    deserializeRecord (serializeRecord rec) = some rec := by
  unfold serializeRecord deserializeRecord
  rw [show (String.mk (b64encode (pickleDumps rec))).data
        = b64encode (pickleDumps rec) from rfl,
    b64decode_b64encode _ (pickleDumps_lt rec)]
  exact pickleLoads_pickleDumps rec

/-! ## The session entity

`BaseSession.__init__` either rehydrates a stored session (when a
`session_id` keyword is passed) or creates a fresh one; `__setitem__` and
`__delitem__` mutate `data` and raise the dirty flag;
`_value_to_epoch_time` normalizes the heterogeneous age input. -/

/-- The heterogeneous values accepted for `session_age` / `expires` /
`to_time`.  `vfunc` carries a callback that, like any Python function, may
return an integer or `None`; `vother` stands for every Python value whose
type matches none of the `isinstance` branches (the silent-fallback
population). -/
inductive AgeValue : Type where
  | vint : Int → AgeValue
  | vstr : String → AgeValue
  | vdatetime : Int → AgeValue
  | vtimedelta : Int → AgeValue
  | vfunc : (Unit → Option Int) → AgeValue
  | vnone : AgeValue
  | vother : AgeValue

inductive PyError : Type where
  | valueError : PyError
  | keyError : PyError
  | unpicklingError : PyError
deriving DecidableEq

/-- Model of Python `int(s)` on a string: an optional sign followed by at
least one decimal digit (a failing conversion raises `ValueError`). -/
def pyStrToInt (s : String) : Option Int :=
  match s.data with
  | '-' :: ds =>
    if ds ≠ [] ∧ ds.all Char.isDigit then
      some (-(Nat.ofDigits 10 ((ds.map fun c => c.toNat - 48).reverse) : Int))
    else none
  | ds =>
    if ds ≠ [] ∧ ds.all Char.isDigit then
      some ((Nat.ofDigits 10 ((ds.map fun c => c.toNat - 48).reverse) : Int))
    else none

/-- Model of `BaseSession._value_to_epoch_time`.  `now` is the current epoch
time; datetimes and the results of `time.mktime` are modelled as epoch
seconds.  The callback branch returns the callback value verbatim. -/
def value_to_epoch_time (now : Int) : AgeValue → Except PyError (Option Int)
  | .vint n => .ok (some (now + n))
  | .vstr s =>
    match pyStrToInt s with
    | some n => .ok (some (now + n))
    | none => .error .valueError
  | .vdatetime t => .ok (some t)
  | .vtimedelta d => .ok (some (now + d))
  | .vfunc f => .ok (f ())
  | .vnone => .ok (some (now + 900))
  | .vother => .ok (some (now + 900))

/-- The in-memory session entity.  `expires` is `Option Int` because Python
never forces it to be an integer: the rehydrating branch of `__init__`
stores the passed value verbatim and the callback branch of
`_value_to_epoch_time` returns the callback value verbatim.
`delete_cookie` and `refresh_cookie` model `_delete_cookie` and
`_refresh_cookie`, the signals to the external cookie collaborator. -/
structure Session where
  session_id : String
  data : PDict
  expires : Option Int
  ip_address : Option String
  user_agent : Option String
  security_model : List String
  dirty : Bool
  delete_cookie : Bool
  refresh_cookie : Bool

/-- The verbatim storage of the `expires` argument performed by the
rehydrating branch of `__init__`, restricted to the storage-representable
values (an integer from a stored record, or `None`). -/
def storedExpires : AgeValue → Option Int
  | .vint n => some n
  | _ => none

/-- Model of `BaseSession.__init__`.  `session_id = some sid` is the
rehydration branch (kwargs of a loaded record); `none` is the fresh-session
branch, where `freshId` stands for the value of `_generate_session_id()`
(32 random bytes hex-encoded, supplied here by the environment). -/
def baseInit (session_id : Option String) (dataArg : PDict)
    (expiresArg : AgeValue) (ip_address user_agent : Option String)
    (security_model : List String) (now : Int) (freshId : String) :
    Except PyError Session :=
  match session_id with
  | some sid =>
    .ok { session_id := sid, data := dataArg,
          expires := storedExpires expiresArg,
          ip_address := ip_address, user_agent := user_agent,
          security_model := security_model,
          dirty := false, delete_cookie := false, refresh_cookie := false }
  | none =>
    match value_to_epoch_time now expiresArg with
    | .error e => .error e
    | .ok e =>
      .ok { session_id := freshId, data := .dnil, expires := e,
            ip_address := ip_address, user_agent := user_agent,
            security_model := security_model,
            dirty := true, delete_cookie := false, refresh_cookie := false }

/-- Python dictionary assignment: replace the value of an existing key in
place, otherwise append the binding. -/
def dictSet : PDict → String → PVal → PDict
  | .dnil, k, v => .dcons k v .dnil
  | .dcons k2 v2 d, k, v =>
    if k2 = k then .dcons k2 v d else .dcons k2 v2 (dictSet d k v)

/-- Python dictionary deletion: `none` models the `KeyError` raised on a
missing key. -/
def dictDel : PDict → String → Option PDict
  | .dnil, _ => none
  | .dcons k2 v2 d, k =>
    if k2 = k then some d
    else
      match dictDel d k with
      | none => none
      | some d2 => some (.dcons k2 v2 d2)

/-- Model of `BaseSession.__setitem__`: store the value and raise `dirty`. -/
def setitem (s : Session) (k : String) (v : PVal) : Session :=
  { s with data := dictSet s.data k v, dirty := true }

/-- Model of `BaseSession.__delitem__`: delete the key and raise `dirty`;
a missing key raises `KeyError` before any mutation. -/
def delitem (s : Session) (k : String) : Except PyError Session :=
  match dictDel s.data k with
  | none => .error .keyError
  | some d => .ok { s with data := d, dirty := true }

/-- The record that `BaseSession.serialize` dumps for a session. -/
def recordOfSession (s : Session) : SessionRecord :=
  { session_id := s.session_id, data := s.data, expires := s.expires,
    ip_address := s.ip_address, user_agent := s.user_agent,
    security_model := s.security_model }

/-- The session produced by rehydrating a deserialized record through
`__init__` with the record fields as kwargs (`session_id` present, so the
rehydration branch runs and `dirty` starts false). -/
def sessionOfRecord (r : SessionRecord) : Session :=
  { session_id := r.session_id, data := r.data, expires := r.expires,
    ip_address := r.ip_address, user_agent := r.user_agent,
    security_model := r.security_model,
    dirty := false, delete_cookie := false, refresh_cookie := false }

/-! ## FileSession: one shared CSV file

The storage file holds one row per session with fields
`session_id, data, expires, ip_address, user-agent`.  The world record
carries the parsed rows of the storage file, the OS default temporary
directory (`tempfile.mkstemp()` without a `dir` argument creates its file
there), a counter that makes successive temporary names distinct, and a
trace of filesystem events. -/

structure FSRow where
  session_id : String
  dataField : String
  expiresField : Option Int
  ipField : Option String
  uaField : Option String
deriving DecidableEq

/-- The row that `save` writes for a session: the `data` column holds the
whole serialized record. -/
def rowOfSession (s : Session) : FSRow :=
  { session_id := s.session_id,
    dataField := serializeRecord (recordOfSession s),
    expiresField := s.expires, ipField := s.ip_address,
    uaField := s.user_agent }

inductive FsEvent : Type where
  | readFile : String → FsEvent
  | mkstemp : String → String → FsEvent
  | rename : String → String → FsEvent
deriving DecidableEq

structure FileWorld where
  file_path : String
  fileRows : List FSRow
  tempDir : String
  tempCounter : Nat
  events : List FsEvent
deriving DecidableEq

/-- A fresh temporary file name inside `dir`. -/
def tempName (dir : String) (k : Nat) : String := dir ++ "/tmp" ++ toString k

/-- One pass of the `save` loop over the existing rows: every row whose id
matches is replaced by the new row, the others are copied verbatim. -/
def updateRows (sid : String) (new : FSRow) : List FSRow → List FSRow
  | [] => []
  | r :: rest => (if r.session_id = sid then new else r) :: updateRows sid new rest

/-- Whether some existing row has the given id (the `found` flag). -/
def containsRow (sid : String) : List FSRow → Bool
  | [] => false
  | r :: rest => r.session_id = sid || containsRow sid rest

/-- The rows written by `save`: replace the matching row, or append the new
row when no row matched. -/
def fileRowsAfterSave (rows : List FSRow) (new : FSRow) : List FSRow :=
  if containsRow new.session_id rows then updateRows new.session_id new rows
  else rows ++ [new]

/-- Model of `FileSession.save`: a no-op unless dirty; otherwise read the
storage file, write the replaced/appended rows to a fresh `mkstemp()` file
(created in the OS default temporary directory — the call passes no `dir`
argument), rename it over the storage file, and clear `dirty`. -/
def fileSave (s : Session) (w : FileWorld) : Session × FileWorld :=
  if s.dirty then
    let tmp := tempName w.tempDir w.tempCounter
    ({ s with dirty := false },
     { w with fileRows := fileRowsAfterSave w.fileRows (rowOfSession s),
              tempCounter := w.tempCounter + 1,
              events := w.events ++ [FsEvent.readFile w.file_path,
                                     FsEvent.mkstemp w.tempDir tmp,
                                     FsEvent.rename tmp w.file_path] })
  else (s, w)

/-- The first stored row with the given id, as scanned by `load`. -/
def findRow (sid : String) : List FSRow → Option FSRow
  | [] => none
  | r :: rest => if r.session_id = sid then some r else findRow sid rest

/-- Model of `FileSession.load`: scan the rows for the id; on a match,
deserialize the `data` column and rehydrate; any failure inside the
enclosing `try` (no match, or a deserialize error) returns `None`. -/
def fileLoad (sid : String) : List FSRow → Option Session
  | [] => none
  | r :: rest =>
    if r.session_id = sid then
      match deserializeRecord r.dataField with
      | some rec => some (sessionOfRecord rec)
      | none => none
    else fileLoad sid rest

/-- The surviving rows after `delete`: every row with the id is omitted. -/
def removeRows (sid : String) : List FSRow → List FSRow
  | [] => []
  | r :: rest =>
    if r.session_id = sid then removeRows sid rest
    else r :: removeRows sid rest

/-- Model of `FileSession.delete`: rewrite the storage file without the
session's rows, through the same mkstemp-and-rename sequence as `save`. -/
def fileDelete (s : Session) (w : FileWorld) : FileWorld :=
  let tmp := tempName w.tempDir w.tempCounter
  { w with fileRows := removeRows s.session_id w.fileRows,
           tempCounter := w.tempCounter + 1,
           events := w.events ++ [FsEvent.readFile w.file_path,
                                  FsEvent.mkstemp w.tempDir tmp,
                                  FsEvent.rename tmp w.file_path] }

/-- Model of `BaseSession.refresh` running against the FileSession engine:
recompute `expires` from `to_time`; if `new_session_id`, delete the old
record and generate a fresh identifier (`freshId`); if `new_session_id` or
`saveArg`, force `dirty := true` and save; finally signal the cookie
collaborator via `_refresh_cookie`. -/
def fileRefresh (now : Int) (freshId : String) (s : Session) (w : FileWorld)
    (to_time : AgeValue) (new_session_id : Bool) (saveArg : Bool) :
    Except PyError (Session × FileWorld) :=
  match value_to_epoch_time now to_time with
  | .error e => .error e
  | .ok e =>
    let s1 := { s with expires := e }
    let sw2 :=
      if new_session_id then
        ({ s1 with session_id := freshId }, fileDelete s1 w)
      else (s1, w)
    if new_session_id || saveArg then
      let s3 := { sw2.1 with dirty := true }
      let sw4 := fileSave s3 sw2.2
      .ok ({ sw4.1 with refresh_cookie := true }, sw4.2)
    else
      .ok ({ sw2.1 with refresh_cookie := true }, sw2.2)

/-! ## DirSession: one file per session -/

structure DirWorld where
  dir_path : String
  files : List (String × FSRow)
  tempCounter : Nat
  events : List FsEvent
deriving DecidableEq

/-- Insert-or-replace of a directory entry by filename. -/
def filesInsert (fname : String) (row : FSRow) :
    List (String × FSRow) → List (String × FSRow)
  | [] => [(fname, row)]
  | (f, r) :: rest =>
    if f = fname then (f, row) :: rest else (f, r) :: filesInsert fname row rest

/-- Model of `DirSession.save`: a no-op unless dirty; otherwise write the
row to an `mkstemp(dir=self.dir_path)` file — created inside the sessions
directory — and rename it onto `<session_id>.session`. -/
def dirSave (s : Session) (w : DirWorld) : Session × DirWorld :=
  if s.dirty then
    let tmp := tempName w.dir_path w.tempCounter
    let canonical := w.dir_path ++ "/" ++ s.session_id ++ ".session"
    ({ s with dirty := false },
     { w with files := filesInsert canonical (rowOfSession s) w.files,
              tempCounter := w.tempCounter + 1,
              events := w.events ++ [FsEvent.mkstemp w.dir_path tmp,
                                     FsEvent.rename tmp canonical] })
  else (s, w)

/-! ## MySQLSession: one table, one row per session -/

inductive SqlEvent : Type where
  | showTables : SqlEvent
  | createTable : SqlEvent
  | upsert : String → SqlEvent
  | selectRow : String → SqlEvent
  | deleteRow : String → SqlEvent
deriving DecidableEq

inductive SqlError : Type where
  | programmingError : SqlError
deriving DecidableEq

structure SqlWorld where
  tables : List String
  srows : List FSRow
  events : List SqlEvent
deriving DecidableEq

/-- Model of `MySQLSession.save`: a no-op unless dirty; otherwise check
`show tables`, create `tornado_sessions` if missing, and upsert the row
(`insert ... on duplicate key update`). -/
def mysqlSave (s : Session) (w : SqlWorld) : Session × SqlWorld :=
  if s.dirty then
    let w1 := { w with events := w.events ++ [SqlEvent.showTables] }
    let w2 :=
      if "tornado_sessions" ∈ w1.tables then w1
      else { w1 with tables := w1.tables ++ ["tornado_sessions"],
                     events := w1.events ++ [SqlEvent.createTable] }
    ({ s with dirty := false },
     { w2 with srows := fileRowsAfterSave w2.srows (rowOfSession s),
               events := w2.events ++ [SqlEvent.upsert s.session_id] })
  else (s, w)

/-- Model of `connection.get` for the point lookup in `load`: raises
`ProgrammingError` when the `tornado_sessions` table does not exist. -/
def connGet (w : SqlWorld) (sid : String) : Except SqlError (Option FSRow) :=
  if "tornado_sessions" ∈ w.tables then .ok (findRow sid w.srows)
  else .error .programmingError

/-- Model of `MySQLSession.load`: the `except database.ProgrammingError`
clause turns a missing-table failure of the lookup into `None`; an absent
row is `None`; an unpickling failure is not caught and propagates. -/
def mysqlLoad (w : SqlWorld) (sid : String) : Except PyError (Option Session) :=
  match connGet w sid with
  | .error .programmingError => .ok none
  | .ok none => .ok none
  | .ok (some row) =>
    match deserializeRecord row.dataField with
    | none => .error .unpicklingError
    | some rec => .ok (some (sessionOfRecord rec))

/-! ## MySQLSession._parse_connection_details

The source branches on whether the address contains an `@` and then applies
one of two regular expressions with `re.match`:

* with `@`:    `mysql://(\w+):(.*?)@([\w|\.]+)(?::(\d+))?/(\S+)`
* without `@`: `mysql://(\w+):(.*?)/(\S+)`

A failed match yields `None`, and the unconditional `match.group(1)` then
raises `AttributeError` — a generic failure.  The matchers below transcribe
the two patterns; on these patterns the backtracking search of `re.match`
is deterministic except for the lazy `(.*?)`, which is realized by trying
each candidate separator from the left. -/

/-- Python `\w` without `re.UNICODE`: `[a-zA-Z0-9_]`. -/
def isWordChar (c : Char) : Bool := c.isAlpha || c.isDigit || c = '_'

/-- The character class `[\w|\.]` of the hostname group. -/
def isHostChar (c : Char) : Bool := isWordChar c || c = '|' || c = '.'

/-- Python whitespace for `\S`: `[ \t\n\r\f\v]` complement. -/
def isSpaceChar (c : Char) : Bool :=
  c = ' ' || c = '\t' || c = '\n' || c = '\r'
    || c = Char.ofNat 12 || c = Char.ofNat 11

/-- Match a literal character sequence at the head of the input. -/
def stripLit : List Char → List Char → Option (List Char)
  | [], l => some l
  | _ :: _, [] => none
  | c :: cs, x :: xs => if x = c then stripLit cs xs else none

/-- Match `(\S+)` greedily; `re.match` does not anchor the end, so trailing
input after the maximal run is allowed. -/
def matchDb (l : List Char) : Option String :=
  let s := l.takeWhile (fun c => ¬ isSpaceChar c)
  if s.isEmpty then none else some (String.mk s)

/-- Match `([\w|\.]+)(?::(\d+))?/(\S+)` (the part after `@`).  The greedy
host and digit runs cannot backtrack productively because no run character
can match the following `:` or `/`. -/
def matchTailA (l : List Char) : Option (String × Option String × String) :=
  let host := l.takeWhile isHostChar
  let rest := l.dropWhile isHostChar
  if host.isEmpty then none
  else
    match rest with
    | ':' :: r2 =>
      let digits := r2.takeWhile Char.isDigit
      let r3 := r2.dropWhile Char.isDigit
      if digits.isEmpty then none
      else
        match r3 with
        | '/' :: r4 =>
          match matchDb r4 with
          | some db => some (String.mk host, some (String.mk digits), db)
          | none => none
        | _ => none
    | '/' :: r4 =>
      match matchDb r4 with
      | some db => some (String.mk host, none, db)
      | none => none
    | _ => none

/-- The lazy `(.*?)@` of the first pattern: try the leftmost `@` whose tail
matches, extend the password over it otherwise; `.` matches neither a
newline nor nothing beyond the input. -/
def findAtSplit (acc : List Char) :
    List Char → Option (String × String × Option String × String)
  | [] => none
  | '@' :: tail =>
    (match matchTailA tail with
     | some (h, p, db) => some (String.mk acc, h, p, db)
     | none => findAtSplit (acc ++ ['@']) tail)
  | c :: tail =>
    if c = '\n' then none else findAtSplit (acc ++ [c]) tail

/-- The lazy `(.*?)/` of the second pattern. -/
def findSlashSplit (acc : List Char) : List Char → Option (String × String)
  | [] => none
  | '/' :: tail =>
    (match matchDb tail with
     | some db => some (String.mk acc, db)
     | none => findSlashSplit (acc ++ ['/']) tail)
  | c :: tail =>
    if c = '\n' then none else findSlashSplit (acc ++ [c]) tail

/-- `re.match` of `mysql://(\w+):(.*?)@([\w|\.]+)(?::(\d+))?/(\S+)`. -/
def matchA (details : String) :
    Option (String × String × String × Option String × String) :=
  match stripLit ("mysql://".data) details.data with
  | none => none
  | some l =>
    let user := l.takeWhile isWordChar
    let rest := l.dropWhile isWordChar
    if user.isEmpty then none
    else
      match rest with
      | ':' :: r2 =>
        match findAtSplit [] r2 with
        | some (pass, h, p, db) => some (String.mk user, pass, h, p, db)
        | none => none
      | _ => none

/-- `re.match` of `mysql://(\w+):(.*?)/(\S+)`. -/
def matchB (details : String) : Option (String × String × String) :=
  match stripLit ("mysql://".data) details.data with
  | none => none
  | some l =>
    let user := l.takeWhile isWordChar
    let rest := l.dropWhile isWordChar
    if user.isEmpty then none
    else
      match rest with
      | ':' :: r2 =>
        match findSlashSplit [] r2 with
        | some (pass, db) => some (String.mk user, pass, db)
        | none => none
      | _ => none

/-- The failure kinds a caller could observe: the generic `AttributeError`
that the code actually raises when a match fails, and the
`ConfigurationError` kind that the specification calls for (no code path
produces it). -/
inductive ParseFailure : Type where
  | attributeError : ParseFailure
  | configurationError : ParseFailure
deriving DecidableEq

structure ConnDetails where
  username : String
  password : String
  host_port : String
  database : String
deriving DecidableEq

/-- Model of `MySQLSession._parse_connection_details`: branch on the
presence of `@`; a failed `re.match` makes `match.group(1)` raise
`AttributeError`; `port = match.group(4) or '3306'` and, without `@`,
`host_port = 'localhost:3306'`. -/
def parse_connection_details (details : String) :
    Except ParseFailure ConnDetails :=
  if details.data.contains '@' then
    match matchA details with
    | none => .error .attributeError
    | some (u, p, h, port, db) =>
      .ok { username := u, password := p,
            host_port := h ++ ":" ++ port.getD "3306", database := db }
  else
    match matchB details with
    | none => .error .attributeError
    | some (u, p, db) =>
      .ok { username := u, password := p,
            host_port := "localhost:3306", database := db }


/-! ## Helper lemmas about stored rows and event traces -/

theorem findRow_eq_none_of_not_contains (sid : String) (rows : List FSRow)
    (h : containsRow sid rows = false) : findRow sid rows = none := by
  induction rows with
  | nil => rfl
  | cons r rest ih =>
    simp only [containsRow, Bool.or_eq_false_iff, decide_eq_false_iff_not] at h
    rw [findRow, if_neg h.1]
    exact ih (by simpa using h.2)

theorem findRow_removeRows_self (sid : String) (rows : List FSRow) :
    findRow sid (removeRows sid rows) = none := by
  induction rows with
  | nil => rfl
  | cons r rest ih =>
    by_cases h : r.session_id = sid
    · rw [removeRows, if_pos h]
      exact ih
    · rw [removeRows, if_neg h, findRow, if_neg h]
      exact ih

theorem findRow_updateRows_other (sid sid2 : String) (new : FSRow)
    (rows : List FSRow) (h : sid ≠ sid2) (hnew : new.session_id = sid2) :
    findRow sid (updateRows sid2 new rows) = findRow sid rows := by
  induction rows with
  | nil => rfl
  | cons r rest ih =>
    by_cases hr : r.session_id = sid2
    · have hns : new.session_id ≠ sid := by rw [hnew]; exact fun hc => h hc.symm
      have hrs : r.session_id ≠ sid := by rw [hr]; exact fun hc => h hc.symm
      rw [updateRows, if_pos hr, findRow, if_neg hns, findRow, if_neg hrs]
      exact ih
    · rw [updateRows, if_neg hr, findRow, findRow]
      by_cases hs : r.session_id = sid
      · rw [if_pos hs, if_pos hs]
      · rw [if_neg hs, if_neg hs]
        exact ih

theorem findRow_append_singleton_other (sid : String) (new : FSRow)
    (rows : List FSRow) (h : sid ≠ new.session_id) :
    findRow sid (rows ++ [new]) = findRow sid rows := by
  induction rows with
  | nil =>
    have hns : ¬ new.session_id = sid := fun hc => h hc.symm
    simp [findRow, hns]
  | cons r rest ih =>
    rw [List.cons_append, findRow, findRow]
    by_cases hs : r.session_id = sid
    · rw [if_pos hs, if_pos hs]
    · rw [if_neg hs, if_neg hs]
      exact ih

theorem findRow_afterSave_other (rows : List FSRow) (new : FSRow)
    (sid : String) (h : sid ≠ new.session_id) :
    findRow sid (fileRowsAfterSave rows new) = findRow sid rows := by
  unfold fileRowsAfterSave
  by_cases hc : containsRow new.session_id rows
  · rw [if_pos hc]
    exact findRow_updateRows_other sid new.session_id new rows h rfl
  · rw [if_neg hc]
    exact findRow_append_singleton_other sid new rows h

theorem findRow_updateRows_self (sid : String) (new : FSRow)
    (rows : List FSRow) (hnew : new.session_id = sid)
    (h : containsRow sid rows = true) :
    findRow sid (updateRows sid new rows) = some new := by
  induction rows with
  | nil => simp [containsRow] at h
  | cons r rest ih =>
    by_cases hr : r.session_id = sid
    · rw [updateRows, if_pos hr, findRow, if_pos hnew]
    · simp only [containsRow, Bool.or_eq_true, decide_eq_true_eq] at h
      rcases h with h | h
      · exact absurd h hr
      · rw [updateRows, if_neg hr, findRow, if_neg hr]
        exact ih h

theorem findRow_append_singleton_self (sid : String) (new : FSRow)
    (rows : List FSRow) (hnew : new.session_id = sid)
    (h : findRow sid rows = none) :
    findRow sid (rows ++ [new]) = some new := by
  induction rows with
  | nil => rw [List.nil_append, findRow, if_pos hnew]
  | cons r rest ih =>
    rw [findRow] at h
    by_cases hr : r.session_id = sid
    · rw [if_pos hr] at h
      exact absurd h (by simp)
    · rw [if_neg hr] at h
      rw [List.cons_append, findRow, if_neg hr]
      exact ih h

theorem findRow_afterSave_self (rows : List FSRow) (new : FSRow) :
    findRow new.session_id (fileRowsAfterSave rows new) = some new := by
  unfold fileRowsAfterSave
  by_cases hc : containsRow new.session_id rows
  · rw [if_pos hc]
    exact findRow_updateRows_self new.session_id new rows rfl hc
  · rw [if_neg hc]
    exact findRow_append_singleton_self new.session_id new rows rfl
      (findRow_eq_none_of_not_contains _ _ (by simpa using hc))

/-- Number of rename system calls in a filesystem trace: each dirty save of
the file-based engines commits its data with exactly one rename. -/
def renameCount : List FsEvent → Nat
  | [] => 0
  | FsEvent.rename _ _ :: rest => renameCount rest + 1
  | _ :: rest => renameCount rest

theorem renameCount_append (l1 l2 : List FsEvent) :
    renameCount (l1 ++ l2) = renameCount l1 + renameCount l2 := by
  induction l1 with
  | nil => simp [renameCount]
  | cons e rest ih =>
    cases e <;> simp [renameCount, ih] <;> omega

/-- Number of upsert statements in a database trace. -/
def upsertCount : List SqlEvent → Nat
  | [] => 0
  | SqlEvent.upsert _ :: rest => upsertCount rest + 1
  | _ :: rest => upsertCount rest

theorem upsertCount_append (l1 l2 : List SqlEvent) :
    upsertCount (l1 ++ l2) = upsertCount l1 + upsertCount l2 := by
  induction l1 with
  | nil => simp [upsertCount]
  | cons e rest ih =>
    cases e <;> simp [upsertCount, ih] <;> omega

/-! ## Small engine-level lemmas shared by the claims -/

theorem fileSave_clean (s : Session) (w : FileWorld) (h : s.dirty = false) :
    fileSave s w = (s, w) := by
  simp [fileSave, h]

theorem dirSave_clean (s : Session) (w : DirWorld) (h : s.dirty = false) :
    dirSave s w = (s, w) := by
  simp [dirSave, h]

theorem mysqlSave_clean (s : Session) (w : SqlWorld) (h : s.dirty = false) :
    mysqlSave s w = (s, w) := by
  simp [mysqlSave, h]

theorem fileSave_dirty_eq (s : Session) (w : FileWorld) (h : s.dirty = true) :
    fileSave s w =
      ({ s with dirty := false },
       { w with
           fileRows := fileRowsAfterSave w.fileRows (rowOfSession s),
           tempCounter := w.tempCounter + 1,
           events := w.events
             ++ [FsEvent.readFile w.file_path,
                 FsEvent.mkstemp w.tempDir (tempName w.tempDir w.tempCounter),
                 FsEvent.rename (tempName w.tempDir w.tempCounter)
                   w.file_path] }) := by
  simp [fileSave, h]

theorem dirSave_dirty_eq (s : Session) (w : DirWorld) (h : s.dirty = true) :
    dirSave s w =
      ({ s with dirty := false },
       { w with
           files := filesInsert (w.dir_path ++ "/" ++ s.session_id ++ ".session")
             (rowOfSession s) w.files,
           tempCounter := w.tempCounter + 1,
           events := w.events
             ++ [FsEvent.mkstemp w.dir_path (tempName w.dir_path w.tempCounter),
                 FsEvent.rename (tempName w.dir_path w.tempCounter)
                   (w.dir_path ++ "/" ++ s.session_id ++ ".session")] }) := by
  simp [dirSave, h]

theorem mysqlSave_upsertCount (s : Session) (w : SqlWorld) (h : s.dirty = true) :
    upsertCount (mysqlSave s w).2.events = upsertCount w.events + 1 := by
  by_cases ht : "tornado_sessions" ∈ w.tables <;>
    simp [mysqlSave, h, ht, upsertCount_append, upsertCount]

/-! ## Concrete instances used by witnesses and counterexamples -/

def sampleRecord : SessionRecord :=
  { session_id := "a", data := .dnil, expires := some 1,
    ip_address := none, user_agent := none, security_model := [] }

def sampleSession : Session :=
  { session_id := "abc", data := PDict.dcons "k" (PVal.pint 1) .dnil,
    expires := some 5, ip_address := none, user_agent := none,
    security_model := [], dirty := true, delete_cookie := false,
    refresh_cookie := false }

def sampleClean : Session := { sampleSession with dirty := false }

def sampleWorld : FileWorld :=
  { file_path := "/data/sessions.csv", fileRows := [], tempDir := "/tmp",
    tempCounter := 0, events := [] }

def sampleDirWorld : DirWorld :=
  { dir_path := "/srv/sessions", files := [], tempCounter := 0, events := [] }

def sampleSqlWorld : SqlWorld := { tables := [], srows := [], events := [] }

/-- A stored row whose `data` column does not decode. -/
def badRow : FSRow :=
  { session_id := "m", dataField := "!!!", expiresField := none,
    ipField := none, uaField := none }

/-- Model of `os.path.dirname` on a normalized absolute path with at least
two components: everything before the last slash. -/
def dirname (p : String) : String :=
  String.mk (((p.data.reverse.dropWhile (fun c => c ≠ '/')).drop 1).reverse)

/-! ## The claims -/

/-- C7: a null age input resolves to now plus the default age of 900 seconds
(15 minutes), an input of unrecognized type does the same without raising,
and a session constructed with no age argument has `expires` exactly 900
seconds in the future with `dirty` raised until the first save. -/
theorem expiry_default_fallback (now : Int) (fid : String)
    (ip ua : Option String) (sm : List String) :
    value_to_epoch_time now .vnone = .ok (some (now + 900))
    ∧ value_to_epoch_time now .vother = .ok (some (now + 900))
    ∧ baseInit none .dnil .vnone ip ua sm now fid
        = .ok { session_id := fid, data := .dnil, expires := some (now + 900),
                ip_address := ip, user_agent := ua, security_model := sm,
                dirty := true, delete_cookie := false,
                refresh_cookie := false } :=
  ⟨rfl, rfl, rfl⟩

/-- C8 counterexample: a construction that resolves the age input through
the callback form completes successfully with a null `expires` (the
callback's `None` return is used verbatim), so `expires` is not always a
concrete timestamp after construction. -/
theorem construction_null_expires :
    baseInit none .dnil (.vfunc fun _ => none) none none [] 0 "fid"
      = .ok { session_id := "fid", data := .dnil, expires := none,
              ip_address := none, user_agent := none, security_model := [],
              dirty := true, delete_cookie := false,
              refresh_cookie := false } := rfl

/-- C8 (amended): after a fresh construction completes with any age input
other than the callback form, `expires` is a concrete timestamp; the
callback form's return value — and the value stored verbatim by a
rehydrating construction — may be null. -/
theorem construction_expires_concrete (now : Int) (fid : String)
    (d : PDict) (ip ua : Option String) (sm : List String) (arg : AgeValue)
    (hf : ∀ f, arg ≠ .vfunc f) (s : Session)
    (h : baseInit none d arg ip ua sm now fid = .ok s) :
    s.expires.isSome = true := by
  cases arg with
  | vint n =>
    simp only [baseInit, value_to_epoch_time, Except.ok.injEq] at h
    rw [← h]
    rfl
  | vstr str =>
    cases hp : pyStrToInt str with
    | none => simp [baseInit, value_to_epoch_time, hp] at h
    | some n =>
      simp only [baseInit, value_to_epoch_time, hp, Except.ok.injEq] at h
      rw [← h]
      rfl
  | vdatetime t =>
    simp only [baseInit, value_to_epoch_time, Except.ok.injEq] at h
    rw [← h]
    rfl
  | vtimedelta dt =>
    simp only [baseInit, value_to_epoch_time, Except.ok.injEq] at h
    rw [← h]
    rfl
  | vfunc f => exact absurd rfl (hf f)
  | vnone =>
    simp only [baseInit, value_to_epoch_time, Except.ok.injEq] at h
    rw [← h]
    rfl
  | vother =>
    simp only [baseInit, value_to_epoch_time, Except.ok.injEq] at h
    rw [← h]
    rfl

theorem construction_expires_concrete_witness :
    ({ session_id := "x", data := .dnil, expires := some 900,
       ip_address := none, user_agent := none, security_model := [],
       dirty := true, delete_cookie := false,
       refresh_cookie := false } : Session).expires.isSome = true :=
  construction_expires_concrete 0 "x" .dnil none none [] .vnone
    (fun _ h => nomatch h) _ rfl

/-- C9: `dirty` is false immediately after a rehydrating construction and
immediately after a session is rehydrated by `load`, and every successful
mutation through `__setitem__` or `__delitem__` raises `dirty`. -/
theorem dirty_flag_invariants :
    (∀ sid d e ip ua sm now fid s2,
        baseInit (some sid) d e ip ua sm now fid = .ok s2 → s2.dirty = false)
    ∧ (∀ sid rows s2, fileLoad sid rows = some s2 → s2.dirty = false)
    ∧ (∀ s k v, (setitem s k v).dirty = true)
    ∧ (∀ s k s2, delitem s k = .ok s2 → s2.dirty = true) := by
  refine ⟨?_, ?_, ?_, ?_⟩
  · intro sid d e ip ua sm now fid s2 h
    simp only [baseInit, Except.ok.injEq] at h
    rw [← h]
  · intro sid rows s2 h
    induction rows with
    | nil => exact absurd h (by simp [fileLoad])
    | cons r rest ih =>
      rw [fileLoad] at h
      by_cases hr : r.session_id = sid
      · rw [if_pos hr] at h
        cases hd : deserializeRecord r.dataField with
        | none => rw [hd] at h; exact absurd h (by simp)
        | some rec =>
          rw [hd] at h
          have : sessionOfRecord rec = s2 := by
            simpa using h
          rw [← this]
          rfl
      · rw [if_neg hr] at h
        exact ih h
  · intro s k v
    rfl
  · intro s k s2 h
    unfold delitem at h
    cases hd : dictDel s.data k with
    | none => rw [hd] at h; exact absurd h (by simp)
    | some d2 =>
      rw [hd] at h
      have : ({ s with data := d2, dirty := true } : Session) = s2 := by
        simpa using h
      rw [← this]

theorem dirty_flag_invariants_witness :
    ({ session_id := "a", data := .dnil, expires := some 5,
       ip_address := none, user_agent := none, security_model := [],
       dirty := false, delete_cookie := false,
       refresh_cookie := false } : Session).dirty = false
    ∧ (sessionOfRecord sampleRecord).dirty = false
    ∧ (setitem sampleClean "k" (PVal.pint 2)).dirty = true
    ∧ ({ sampleClean with data := .dnil, dirty := true } : Session).dirty
        = true :=
  ⟨dirty_flag_invariants.1 "a" .dnil (.vint 5) none none [] 0 "f" _ rfl,
   dirty_flag_invariants.2.1 "a" [rowOfSession (sessionOfRecord sampleRecord)]
     _ rfl,
   dirty_flag_invariants.2.2.1 sampleClean "k" (PVal.pint 2),
   dirty_flag_invariants.2.2.2 sampleClean "k" _ rfl⟩

/-- C10: a SQL load performed before the sessions table has ever been
created hits the ProgrammingError branch of the lookup and returns the
explicit not-found result instead of propagating the error. -/
theorem mysqlLoad_missing_table (w : SqlWorld) (sid : String)
    (h : "tornado_sessions" ∉ w.tables) : mysqlLoad w sid = .ok none := by
  unfold mysqlLoad connGet
  rw [if_neg h]

theorem mysqlLoad_missing_table_witness :
    mysqlLoad sampleSqlWorld "missing-id" = .ok none :=
  mysqlLoad_missing_table sampleSqlWorld "missing-id" (by simp [sampleSqlWorld])

/-- C4: file load with an identifier matching no stored row returns the
explicit not-found result, a matching row that fails to decode also returns
not-found (the enclosing `try` turns every failure into `None`), and load
from an empty storage file returns not-found. -/
theorem fileLoad_returns_not_found :
    (∀ sid, fileLoad sid [] = none)
    ∧ (∀ sid rows, (∀ r ∈ rows, r.session_id ≠ sid) → fileLoad sid rows = none)
    ∧ (∀ sid rows r, findRow sid rows = some r →
        deserializeRecord r.dataField = none → fileLoad sid rows = none) := by
  refine ⟨?_, ?_, ?_⟩
  · intro sid
    rfl
  · intro sid rows h
    induction rows with
    | nil => rfl
    | cons r rest ih =>
      rw [fileLoad, if_neg (h r (by simp))]
      exact ih fun r2 hr2 => h r2 (by simp [hr2])
  · intro sid rows r hfind hdec
    induction rows with
    | nil => simp [findRow] at hfind
    | cons r2 rest ih =>
      rw [findRow] at hfind
      by_cases hr : r2.session_id = sid
      · rw [if_pos hr] at hfind
        have : r2 = r := by simpa using hfind
        subst this
        rw [fileLoad, if_pos hr, hdec]
      · rw [if_neg hr] at hfind
        rw [fileLoad, if_neg hr]
        exact ih hfind

theorem fileLoad_returns_not_found_witness :
    fileLoad "missing-id" [] = none
    ∧ fileLoad "missing-id" [badRow] = none
    ∧ fileLoad "m" [badRow] = none :=
  ⟨fileLoad_returns_not_found.1 "missing-id",
   fileLoad_returns_not_found.2.1 "missing-id" [badRow]
     (by intro r hr; simp [badRow] at hr; simp [hr, badRow]),
   fileLoad_returns_not_found.2.2 "m" [badRow] badRow rfl rfl⟩

/-- C2: for each of the three storage engines, save is a complete no-op when
`dirty` is false, leaves `dirty` false after it completes, is gated so that
a second consecutive save without mutation changes nothing more (the write
happens exactly once), and a mutation followed by save performs exactly one
further storage write. -/
theorem save_dirty_gating (s : Session) (w : FileWorld) (dw : DirWorld)
    (qw : SqlWorld) (k : String) (v : PVal) :
    (s.dirty = false →
        fileSave s w = (s, w) ∧ dirSave s dw = (s, dw)
          ∧ mysqlSave s qw = (s, qw))
    ∧ ((fileSave s w).1.dirty = false ∧ (dirSave s dw).1.dirty = false
        ∧ (mysqlSave s qw).1.dirty = false)
    ∧ (fileSave (fileSave s w).1 (fileSave s w).2 = fileSave s w
        ∧ dirSave (dirSave s dw).1 (dirSave s dw).2 = dirSave s dw
        ∧ mysqlSave (mysqlSave s qw).1 (mysqlSave s qw).2 = mysqlSave s qw)
    ∧ (renameCount
          (fileSave (setitem (fileSave s w).1 k v) (fileSave s w).2).2.events
          = renameCount (fileSave s w).2.events + 1
        ∧ renameCount
          (dirSave (setitem (dirSave s dw).1 k v) (dirSave s dw).2).2.events
          = renameCount (dirSave s dw).2.events + 1
        ∧ upsertCount
          (mysqlSave (setitem (mysqlSave s qw).1 k v)
            (mysqlSave s qw).2).2.events
          = upsertCount (mysqlSave s qw).2.events + 1) := by
  have hdirty1 : (fileSave s w).1.dirty = false := by
    by_cases hd : s.dirty
    · rw [fileSave_dirty_eq s w hd]
    · rw [fileSave_clean s w (by simpa using hd)]
      simpa using hd
  have hdirty2 : (dirSave s dw).1.dirty = false := by
    by_cases hd : s.dirty
    · rw [dirSave_dirty_eq s dw hd]
    · rw [dirSave_clean s dw (by simpa using hd)]
      simpa using hd
  have hdirty3 : (mysqlSave s qw).1.dirty = false := by
    by_cases hd : s.dirty
    · simp [mysqlSave, hd]
    · rw [mysqlSave_clean s qw (by simpa using hd)]
      simpa using hd
  refine ⟨fun h => ⟨fileSave_clean s w h, dirSave_clean s dw h,
      mysqlSave_clean s qw h⟩,
    ⟨hdirty1, hdirty2, hdirty3⟩,
    ⟨fileSave_clean _ _ hdirty1, dirSave_clean _ _ hdirty2,
      mysqlSave_clean _ _ hdirty3⟩, ?_, ?_, ?_⟩
  · rw [fileSave_dirty_eq (setitem (fileSave s w).1 k v) (fileSave s w).2 rfl,
      renameCount_append]
    rfl
  · rw [dirSave_dirty_eq (setitem (dirSave s dw).1 k v) (dirSave s dw).2 rfl,
      renameCount_append]
    rfl
  · exact mysqlSave_upsertCount (setitem (mysqlSave s qw).1 k v)
      (mysqlSave s qw).2 rfl

theorem save_dirty_gating_witness :
    fileSave sampleClean sampleWorld = (sampleClean, sampleWorld)
    ∧ dirSave sampleClean sampleDirWorld = (sampleClean, sampleDirWorld)
    ∧ mysqlSave sampleClean sampleSqlWorld = (sampleClean, sampleSqlWorld) :=
  (save_dirty_gating sampleClean sampleWorld sampleDirWorld sampleSqlWorld
    "k" (PVal.pint 0)).1 rfl

/-- C3 counterexample: a dirty file-engine save with storage file
`/data/sessions.csv` creates its temporary file in the OS default temporary
directory `/tmp` (the `tempfile.mkstemp()` call passes no `dir` argument),
which is not the directory `/data` of the storage file — refuting the claim
that the temporary file is created in the same directory as the storage
file. -/
theorem fileSave_temp_dir_differs :
    (fileSave sampleSession sampleWorld).2.events
      = [FsEvent.readFile "/data/sessions.csv",
         FsEvent.mkstemp "/tmp" "/tmp/tmp0",
         FsEvent.rename "/tmp/tmp0" "/data/sessions.csv"]
    ∧ dirname "/data/sessions.csv" = "/data"
    ∧ ("/tmp" : String) ≠ "/data" :=
  ⟨rfl, rfl, by decide⟩

/-- C3 (amended): a dirty file-engine save reads all rows of the storage
file, writes them to a fresh temporary file created in the OS default
temporary directory (not necessarily the storage file's own directory) —
replacing the rows whose id matches the session's id, or appending the new
row when none matches — and renames the temporary file over the original
storage file. -/
theorem fileSave_rewrite_semantics (s : Session) (w : FileWorld)
    (h : s.dirty = true) :
    (fileSave s w).2.events
      = w.events
        ++ [FsEvent.readFile w.file_path,
            FsEvent.mkstemp w.tempDir (tempName w.tempDir w.tempCounter),
            FsEvent.rename (tempName w.tempDir w.tempCounter) w.file_path]
    ∧ (fileSave s w).2.fileRows = fileRowsAfterSave w.fileRows (rowOfSession s)
    ∧ findRow s.session_id (fileSave s w).2.fileRows = some (rowOfSession s)
    ∧ (∀ sid, sid ≠ s.session_id →
        findRow sid (fileSave s w).2.fileRows = findRow sid w.fileRows)
    ∧ (containsRow s.session_id w.fileRows = false →
        (fileSave s w).2.fileRows = w.fileRows ++ [rowOfSession s])
    ∧ (containsRow s.session_id w.fileRows = true →
        (fileSave s w).2.fileRows
          = updateRows s.session_id (rowOfSession s) w.fileRows) := by
  rw [fileSave_dirty_eq s w h]
  refine ⟨rfl, rfl, findRow_afterSave_self w.fileRows (rowOfSession s),
    fun sid hs => findRow_afterSave_other w.fileRows (rowOfSession s) sid hs,
    ?_, ?_⟩
  · intro hc
    unfold fileRowsAfterSave
    rw [show (rowOfSession s).session_id = s.session_id from rfl, hc]
    rfl
  · intro hc
    unfold fileRowsAfterSave
    rw [show (rowOfSession s).session_id = s.session_id from rfl, hc]
    rfl

theorem fileSave_rewrite_semantics_witness :
    (fileSave sampleSession sampleWorld).2.fileRows
      = [rowOfSession sampleSession] :=
  ((fileSave_rewrite_semantics sampleSession sampleWorld rfl).2.2.2.2.1) rfl

/-- C6: refreshing an existing session with identifier rotation first
deletes the old identifier's persisted record (the first
read/mkstemp/rename triple in the trace), then assigns the freshly
generated identifier, then forces a save regardless of the incoming dirty
flag (the second triple, present for every `s`), and finally signals the
cookie collaborator; in the resulting store, the old identifier's record
is gone and the new identifier's record is the saved row. -/
theorem refresh_rotate_id (now : Int) (freshId : String) (s : Session)
    (w : FileWorld) :
    (fileRefresh now freshId s w .vnone true true
      = .ok ({ s with
                 session_id := freshId,
                 expires := some (now + 900),
                 dirty := false,
                 refresh_cookie := true },
             { w with
                 fileRows := fileRowsAfterSave
                   (removeRows s.session_id w.fileRows)
                   (rowOfSession { s with
                                     session_id := freshId,
                                     expires := some (now + 900),
                                     dirty := true }),
                 tempCounter := w.tempCounter + 2,
                 events := w.events
                   ++ [FsEvent.readFile w.file_path,
                       FsEvent.mkstemp w.tempDir
                         (tempName w.tempDir w.tempCounter),
                       FsEvent.rename (tempName w.tempDir w.tempCounter)
                         w.file_path]
                   ++ [FsEvent.readFile w.file_path,
                       FsEvent.mkstemp w.tempDir
                         (tempName w.tempDir (w.tempCounter + 1)),
                       FsEvent.rename (tempName w.tempDir (w.tempCounter + 1))
                         w.file_path] }))
    ∧ (freshId ≠ s.session_id →
        findRow s.session_id
          (fileRowsAfterSave (removeRows s.session_id w.fileRows)
            (rowOfSession { s with
                              session_id := freshId,
                              expires := some (now + 900),
                              dirty := true }))
          = none)
    ∧ findRow freshId
        (fileRowsAfterSave (removeRows s.session_id w.fileRows)
          (rowOfSession { s with
                            session_id := freshId,
                            expires := some (now + 900),
                            dirty := true }))
        = some (rowOfSession { s with
                                 session_id := freshId,
                                 expires := some (now + 900),
                                 dirty := true }) := by
  refine ⟨rfl, ?_, ?_⟩
  · intro h
    rw [findRow_afterSave_other _ _ _ (fun hc => h (by simpa using hc.symm))]
    exact findRow_removeRows_self s.session_id w.fileRows
  · exact findRow_afterSave_self (removeRows s.session_id w.fileRows)
      (rowOfSession { s with
                        session_id := freshId,
                        expires := some (now + 900),
                        dirty := true })

theorem refresh_rotate_id_witness :
    findRow sampleClean.session_id
      (fileRowsAfterSave (removeRows sampleClean.session_id
          sampleWorld.fileRows)
        (rowOfSession { sampleClean with
                          session_id := "new",
                          expires := some 900,
                          dirty := true })) = none :=
  (refresh_rotate_id 0 "new" sampleClean sampleWorld).2.1 (by decide)

/-- C5 counterexample: the malformed address `mysql://` makes the regular
expression match fail, and the code then fails with the generic
`AttributeError` of `match.group(1)` on `None`; there is no
`ConfigurationError` failure, refuting the claim that malformed addresses
are rejected with a clear ConfigurationError. -/
theorem parse_malformed_generic_failure :
    parse_connection_details "mysql://" = .error .attributeError
    ∧ ParseFailure.attributeError ≠ ParseFailure.configurationError :=
  ⟨rfl, by decide⟩

/-- C5 (amended): every parse failure is the generic AttributeError of the
failed regular-expression match — the code has no ConfigurationError path —
while the defaults of the claim do hold: a well-formed address without `@`
gets `localhost:3306`, and one with a host but no port gets port `3306`. -/
theorem parse_failure_kind_and_defaults :
    (∀ details e, parse_connection_details details = .error e →
        e = .attributeError)
    ∧ (∀ details r, details.data.contains '@' = false →
        parse_connection_details details = .ok r →
        r.host_port = "localhost:3306")
    ∧ (∀ details u p hn db, details.data.contains '@' = true →
        matchA details = some (u, p, hn, none, db) →
        parse_connection_details details
          = .ok { username := u, password := p,
                  host_port := hn ++ ":" ++ "3306", database := db }) := by
  refine ⟨?_, ?_, ?_⟩
  · intro details e h
    unfold parse_connection_details at h
    by_cases hc : details.data.contains '@'
    · rw [if_pos hc] at h
      cases hm : matchA details with
      | none =>
        rw [hm] at h
        have := h
        simpa using this.symm
      | some x =>
        obtain ⟨u, p, hn, port, db⟩ := x
        rw [hm] at h
        exact absurd h (by simp)
    · rw [if_neg hc] at h
      cases hm : matchB details with
      | none =>
        rw [hm] at h
        have := h
        simpa using this.symm
      | some x =>
        obtain ⟨u, p, db⟩ := x
        rw [hm] at h
        exact absurd h (by simp)
  · intro details r hc h
    unfold parse_connection_details at h
    rw [if_neg (show ¬ details.data.contains '@' = true by
      rw [hc]; exact Bool.false_ne_true)] at h
    cases hm : matchB details with
    | none =>
      rw [hm] at h
      exact absurd h (by simp)
    | some x =>
      obtain ⟨u, p, db⟩ := x
      rw [hm] at h
      have : ({ username := u, password := p, host_port := "localhost:3306",
                database := db } : ConnDetails) = r := by
        simpa using h
      rw [← this]
  · intro details u p hn db hc hm
    unfold parse_connection_details
    rw [if_pos hc, hm]
    rfl

theorem parse_failure_kind_and_defaults_witness :
    ParseFailure.attributeError = ParseFailure.attributeError
    ∧ ({ username := "u", password := "pw", host_port := "localhost:3306",
         database := "db" } : ConnDetails).host_port = "localhost:3306"
    ∧ parse_connection_details "mysql://u:pw@hst/db"
        = .ok { username := "u", password := "pw", host_port := "hst:3306",
                database := "db" } :=
  ⟨parse_failure_kind_and_defaults.1 "mysql://" .attributeError rfl,
   parse_failure_kind_and_defaults.2.1 "mysql://u:pw/db" _ (by decide) rfl,
   parse_failure_kind_and_defaults.2.2 "mysql://u:pw@hst/db" "u" "pw" "hst"
     "db" (by decide) rfl⟩
